import Mathlib

/-
  Verification development for the procedural terrain / chunk streaming core
  of the r3f-game repository.

  Embedding conventions:
  * JavaScript numbers (IEEE doubles) are modelled as exact rationals; every
    numeric literal of the source is a rational, and Math.PI is the exact
    rational value of the double constant.
  * The simplex-noise functions created once at module load
    (terrainNoiseFunc, detailNoise, grassNoise) and Math.sin are modelled as
    abstract function parameters, since their tables are fixed at startup.
  * The ambient Math.random stream is modelled explicitly as a function from
    a call counter to a rational in [0,1); code that calls Math.random()
    threads the counter, code that does not leaves the stream untouched.
-/

/-! ## Height field (src/src/utils/noise.ts) -/

/-- A 2D noise channel, as produced by createNoise2D(). -/
def Noise2D : Type := ℚ → ℚ → ℚ

/-- TerrainConfig from noise.ts. -/
structure TerrainConfig where
  scale : ℚ
  amplitude : ℚ
  octaves : ℕ
  persistence : ℚ
  lacunarity : ℚ
deriving DecidableEq

/-- defaultTerrainConfig from noise.ts: scale 0.01, amplitude 12, octaves 4,
persistence 0.6, lacunarity 2.2. -/
def defaultTerrainConfig : TerrainConfig :=
  { scale := 0.01, amplitude := 12, octaves := 4, persistence := 0.6, lacunarity := 2.2 }

/-- The octave loop of getTerrainHeight: iterates octave count many times,
accumulating height and maxValue while amplitude decays by persistence and
frequency grows by lacunarity.  Arguments after the count are the loop state
(amplitude, frequency, height, maxValue); returns (height, maxValue). -/
def octLoop (tn : Noise2D) (x z pers lac : ℚ) : ℕ → ℚ → ℚ → ℚ → ℚ → ℚ × ℚ
  | 0, _amp, _freq, h, m => (h, m)
  | n + 1, amp, freq, h, m =>
      octLoop tn x z pers lac n (amp * pers) (freq * lac)
        (h + tn (x * freq) (z * freq) * amp) (m + amp)

/-- getTerrainHeight from noise.ts: the octave loop, then the detail layer
(detailNoise at fixed frequency 0.1, weight 0.8), the ridge term
(abs of terrain noise at 0.02, weight 3) and the valley term (squared terrain
noise at 0.01, weight -2) are added to height, and the final sum is divided
by maxValue.  tn is terrainNoiseFunc and dn is detailNoise. -/
def getTerrainHeight (tn dn : Noise2D) (x z : ℚ) (config : TerrainConfig) : ℚ :=
  let p := octLoop tn x z config.persistence config.lacunarity
    config.octaves config.amplitude config.scale 0 0
  (p.1 + dn (x * 0.1) (z * 0.1) * 0.8
       + |tn (x * 0.02) (z * 0.02)| * 3
       + (tn (x * 0.01) (z * 0.01)) ^ 2 * (-2)) / p.2

/-- Closed-form octave sum: layer i samples tn at frequency scale * lacunarity^i
with amplitude amplitude * persistence^i. -/
def octaveSum (tn : Noise2D) (x z : ℚ) (config : TerrainConfig) : ℚ :=
  ∑ i ∈ Finset.range config.octaves,
    tn (x * (config.scale * config.lacunarity ^ i))
       (z * (config.scale * config.lacunarity ^ i))
      * (config.amplitude * config.persistence ^ i)

/-- Maximum accumulated amplitude over the octaves. -/
def maxAmplitude (config : TerrainConfig) : ℚ :=
  ∑ i ∈ Finset.range config.octaves, config.amplitude * config.persistence ^ i

/-- The fine-detail term of getTerrainHeight. -/
def detailTerm (dn : Noise2D) (x z : ℚ) : ℚ := dn (x * 0.1) (z * 0.1) * 0.8

/-- The ridge term of getTerrainHeight. -/
def ridgeTerm (tn : Noise2D) (x z : ℚ) : ℚ := |tn (x * 0.02) (z * 0.02)| * 3

/-- The valley term of getTerrainHeight. -/
def valleyTerm (tn : Noise2D) (x z : ℚ) : ℚ := (tn (x * 0.01) (z * 0.01)) ^ 2 * (-2)

/-- The height function that claim C3 describes, built from the words of the
spec sentence: only the octave sum is normalized, and the detail, ridge and
valley terms are added after normalization. -/
def claimedHeightC3 (tn dn : Noise2D) (x z : ℚ) (config : TerrainConfig) : ℚ :=
  octaveSum tn x z config / maxAmplitude config
    + detailTerm dn x z + ridgeTerm tn x z + valleyTerm tn x z

lemma octLoop_closed (tn : Noise2D) (x z pers lac : ℚ) :
    ∀ (n : ℕ) (amp freq h m : ℚ),
      octLoop tn x z pers lac n amp freq h m =
        (h + ∑ i ∈ Finset.range n,
              tn (x * (freq * lac ^ i)) (z * (freq * lac ^ i)) * (amp * pers ^ i),
         m + ∑ i ∈ Finset.range n, amp * pers ^ i) := by
  intro n
  induction n with
  | zero => intro amp freq h m; simp [octLoop]
  | succ k ih =>
      intro amp freq h m
      rw [octLoop, ih]
      refine Prod.ext ?_ ?_
      · show h + tn (x * freq) (z * freq) * amp +
          ∑ i ∈ Finset.range k,
            tn (x * (freq * lac * lac ^ i)) (z * (freq * lac * lac ^ i))
              * (amp * pers * pers ^ i) = _
        rw [Finset.sum_range_succ']
        have hcong : ∀ i ∈ Finset.range k,
            tn (x * (freq * lac * lac ^ i)) (z * (freq * lac * lac ^ i))
                * (amp * pers * pers ^ i) =
              tn (x * (freq * lac ^ (i + 1))) (z * (freq * lac ^ (i + 1)))
                * (amp * pers ^ (i + 1)) := by
          intro i _
          have h1 : freq * lac * lac ^ i = freq * lac ^ (i + 1) := by ring
          have h2 : amp * pers * pers ^ i = amp * pers ^ (i + 1) := by ring
          rw [h1, h2]
        rw [Finset.sum_congr rfl hcong]
        simp only [pow_zero, mul_one]
        ring
      · show m + amp + ∑ i ∈ Finset.range k, amp * pers * pers ^ i = _
        have hs := Finset.sum_range_succ' (fun i => amp * pers ^ i) k
        rw [hs]
        have hcong : ∀ i ∈ Finset.range k,
            amp * pers * pers ^ i = amp * pers ^ (i + 1) := by
          intro i _; ring
        rw [Finset.sum_congr rfl hcong]
        simp only [pow_zero, mul_one]
        ring

/-- Shared helper: getTerrainHeight equals the whole sum of octave sum,
detail, ridge and valley terms divided by the maximum accumulated amplitude. -/
lemma getTerrainHeight_closed (tn dn : Noise2D) (x z : ℚ) (config : TerrainConfig) :
    getTerrainHeight tn dn x z config =
      (octaveSum tn x z config + detailTerm dn x z + ridgeTerm tn x z
        + valleyTerm tn x z) / maxAmplitude config := by
  unfold getTerrainHeight
  rw [octLoop_closed]
  simp only [octaveSum, maxAmplitude, detailTerm, ridgeTerm, valleyTerm]
  rw [zero_add, zero_add]

/-- Concrete noise channels used in counterexamples. -/
def noiseZero : Noise2D := fun _ _ => 0

/-- Constant-one noise channel. -/
def noiseOne : Noise2D := fun _ _ => 1

/-- C3: the claim that detail/ridge/valley are added after normalization is
false on the code: with terrain noise identically 0 and detail noise
identically 1, at the origin under the default configuration the code returns
0.8 / 26.112 = 25/816, while the claimed formula returns 0.8. -/
theorem C3_counterexample :
    getTerrainHeight noiseZero noiseOne 0 0 defaultTerrainConfig ≠
      claimedHeightC3 noiseZero noiseOne 0 0 defaultTerrainConfig := by
  norm_num [getTerrainHeight, octLoop, claimedHeightC3, octaveSum, maxAmplitude,
    detailTerm, ridgeTerm, valleyTerm, noiseZero, noiseOne, defaultTerrainConfig,
    Finset.sum_range_succ]

/-- C3 (amended): getTerrainHeight equals the sum of the octave layers, the
fine-detail term, the ridge term and the valley term, ALL divided by the
maximum accumulated amplitude: the detail/ridge/valley terms are normalized
together with the octave sum, not added afterwards. -/
theorem C3_height_formula (tn dn : Noise2D) (x z : ℚ) (config : TerrainConfig) :
    getTerrainHeight tn dn x z config =
      (octaveSum tn x z config + detailTerm dn x z + ridgeTerm tn x z
        + valleyTerm tn x z) / maxAmplitude config :=
  getTerrainHeight_closed tn dn x z config

/-! ## Chunk mesh builder vertex sampling (unnamed Terrain component, part_003,
and generateTerrainChunk in noise.ts) -/

/-- CHUNK_SIZE from the Terrain component (part_003). -/
def CHUNK_SIZE : ℚ := 64

/-- CHUNK_RESOLUTION from the Terrain component (part_003). -/
def CHUNK_RESOLUTION : ℕ := 16

/-- RENDER_DISTANCE from the Terrain component (part_003). -/
def RENDER_DISTANCE : ℤ := 1

/-- World coordinate of grid line i of chunk c in createChunk (part_003):
chunkX * CHUNK_SIZE + (i / CHUNK_RESOLUTION) * CHUNK_SIZE. -/
def chunkVertexCoord (c : ℤ) (i : ℕ) : ℚ :=
  (c : ℚ) * CHUNK_SIZE + ((i : ℚ) / (CHUNK_RESOLUTION : ℚ)) * CHUNK_SIZE

/-- Elevation sampled by createChunk (part_003) for grid vertex (i, j) of chunk
(cx, cz): getTerrainHeight at the world-space coordinates of the vertex, with
the default configuration. -/
def chunkVertexHeight (tn dn : Noise2D) (cx cz : ℤ) (i j : ℕ) : ℚ :=
  getTerrainHeight tn dn (chunkVertexCoord cx i) (chunkVertexCoord cz j)
    defaultTerrainConfig

/-- World coordinate of grid line i of chunk c in generateTerrainChunk
(noise.ts): chunkX * chunkSize + i * stepSize with stepSize = chunkSize /
resolution. -/
def genChunkVertexCoord (c : ℤ) (size : ℚ) (res : ℕ) (i : ℕ) : ℚ :=
  (c : ℚ) * size + (i : ℚ) * (size / (res : ℚ))

/-- Elevation sampled by generateTerrainChunk (noise.ts) for grid vertex
(i, j) of chunk (cx, cz). -/
def genChunkVertexHeight (tn dn : Noise2D) (config : TerrainConfig)
    (size : ℚ) (res : ℕ) (cx cz : ℤ) (i j : ℕ) : ℚ :=
  getTerrainHeight tn dn (genChunkVertexCoord cx size res i)
    (genChunkVertexCoord cz size res j) config

lemma chunkVertexCoord_seam (c : ℤ) :
    chunkVertexCoord (c + 1) 0 = chunkVertexCoord c CHUNK_RESOLUTION := by
  unfold chunkVertexCoord CHUNK_RESOLUTION CHUNK_SIZE
  push_cast
  norm_num
  ring

lemma genChunkVertexCoord_seam (c : ℤ) (size : ℚ) (res : ℕ) (hres : (res : ℚ) ≠ 0) :
    genChunkVertexCoord (c + 1) size res 0 = genChunkVertexCoord c size res res := by
  unfold genChunkVertexCoord
  push_cast
  field_simp
  ring

/-- C2: seam continuity.  For grid-adjacent chunks, the elevation computed
independently by each chunk's builder at a shared boundary vertex is
identical, for both the active builder createChunk (part_003, fixed
CHUNK_SIZE/CHUNK_RESOLUTION) and generateTerrainChunk (noise.ts, arbitrary
chunkSize and nonzero resolution): each samples the height field at world
space coordinates chunkX * chunkSize + (i / resolution) * chunkSize. -/
theorem C2_seam_continuity (tn dn : Noise2D) (config : TerrainConfig)
    (cx cz : ℤ) (i j : ℕ) (size : ℚ) (res : ℕ) (hres : (res : ℚ) ≠ 0) :
    (chunkVertexHeight tn dn (cx + 1) cz 0 j =
      chunkVertexHeight tn dn cx cz CHUNK_RESOLUTION j) ∧
    (chunkVertexHeight tn dn cx (cz + 1) i 0 =
      chunkVertexHeight tn dn cx cz i CHUNK_RESOLUTION) ∧
    (genChunkVertexHeight tn dn config size res (cx + 1) cz 0 j =
      genChunkVertexHeight tn dn config size res cx cz res j) ∧
    (genChunkVertexHeight tn dn config size res cx (cz + 1) i 0 =
      genChunkVertexHeight tn dn config size res cx cz i res) := by
  refine ⟨?_, ?_, ?_, ?_⟩
  · unfold chunkVertexHeight
    rw [chunkVertexCoord_seam]
  · unfold chunkVertexHeight
    rw [chunkVertexCoord_seam]
  · unfold genChunkVertexHeight
    rw [genChunkVertexCoord_seam cx size res hres]
  · unfold genChunkVertexHeight
    rw [genChunkVertexCoord_seam cz size res hres]

/-- Witness for C2 at the legacy call site parameters chunkSize = 50,
resolution = 32, with concrete noise channels and chunk pair (0,0)-(1,0). -/
theorem C2_seam_continuity_witness :
    ((32 : ℚ) ≠ 0) ∧
    (genChunkVertexHeight noiseZero noiseOne defaultTerrainConfig 50 32 (0 + 1) 0 0 3 =
      genChunkVertexHeight noiseZero noiseOne defaultTerrainConfig 50 32 0 0 32 3) :=
  ⟨by norm_num,
    (C2_seam_continuity noiseZero noiseOne defaultTerrainConfig 0 0 2 3 50 32
      (by norm_num)).2.2.1⟩

/-! ## Index buffers (createChunk in part_003 and generateTerrainIndices in
noise.ts) -/

/-- The six index entries pushed for grid cell (i, j) by createChunk
(part_003): with a = i*(resolution+1)+j, b = a+1, c = a+resolution+1,
d = c+1, the pushes are (a, b, c) then (b, d, c). -/
def createChunkCell (r i j : ℕ) : List ℕ :=
  let a := i * (r + 1) + j
  let b := a + 1
  let c := a + r + 1
  let d := c + 1
  [a, b, c, b, d, c]

/-- The six index entries pushed for grid cell (i, j) by
generateTerrainIndices (noise.ts): with the same a, b, c, d the pushes are
(a, c, b) then (b, c, d). -/
def generateTerrainCell (r i j : ℕ) : List ℕ :=
  let a := i * (r + 1) + j
  let b := a + 1
  let c := a + r + 1
  let d := c + 1
  [a, c, b, b, c, d]

/-- Full index buffer built by createChunk (part_003): outer loop over i,
inner loop over j, both over 0..resolution-1. -/
def createChunkIndices (r : ℕ) : List ℕ :=
  (List.range r).flatMap fun i => (List.range r).flatMap fun j => createChunkCell r i j

/-- Full index buffer built by generateTerrainIndices (noise.ts). -/
def generateTerrainIndices (r : ℕ) : List ℕ :=
  (List.range r).flatMap fun i => (List.range r).flatMap fun j => generateTerrainCell r i j

lemma flatMap_length_const {α β : Type} {g : α → List β} {L : ℕ}
    (hg : ∀ a, (g a).length = L) (l : List α) : (l.flatMap g).length = L * l.length := by
  induction l with
  | nil => simp
  | cons a t ih =>
      rw [List.flatMap_cons, List.length_append, ih, hg a, List.length_cons]
      ring

lemma drop_flatMap_block {α β : Type} {g : α → List β} {L : ℕ}
    (hg : ∀ a, (g a).length = L) :
    ∀ (l : List α) (i : ℕ) (h : i < l.length),
      (l.flatMap g).drop (L * i) = g (l.get ⟨i, h⟩) ++ ((l.drop (i + 1)).flatMap g) := by
  intro l
  induction l with
  | nil => intro i h; exact absurd h (by simp)
  | cons a t ih =>
      intro i h
      cases i with
      | zero => simp [List.flatMap_cons]
      | succ n =>
          rw [List.flatMap_cons]
          rw [show L * (n + 1) = (g a).length + L * n by rw [hg a]; ring]
          rw [List.drop_append]
          have hn : n < t.length := by simpa using h
          rw [ih n hn]
          rfl

lemma grid_flatMap_cell {blk : ℕ → ℕ → List ℕ}
    (hblk : ∀ i j, (blk i j).length = 6) (r i j : ℕ) (hi : i < r) (hj : j < r) :
    (((List.range r).flatMap fun a => (List.range r).flatMap fun b => blk a b).drop
        (6 * (i * r + j))).take 6 = blk i j := by
  have houter : ∀ a, ((List.range r).flatMap fun b => blk a b).length = 6 * r := by
    intro a
    rw [flatMap_length_const (fun b => hblk a b), List.length_range]
  have hi2 : i < (List.range r).length := by simpa using hi
  have hj2 : j < (List.range r).length := by simpa using hj
  rw [show 6 * (i * r + j) = 6 * r * i + 6 * j by ring]
  rw [← List.drop_drop]
  rw [drop_flatMap_block houter (List.range r) i hi2]
  have hgi : (List.range r).get ⟨i, hi2⟩ = i := List.get_range i hi2
  rw [hgi]
  rw [List.drop_append_eq_append_drop]
  have hle : 6 * j - ((List.range r).flatMap fun b => blk i b).length = 0 := by
    rw [houter i]
    omega
  rw [hle, List.drop_zero]
  rw [drop_flatMap_block (fun b => hblk i b) (List.range r) j hj2]
  have hgj : (List.range r).get ⟨j, hj2⟩ = j := List.get_range j hj2
  rw [hgj]
  rw [List.append_assoc]
  rw [show (6 : ℕ) = (blk i j).length from (hblk i j).symm]
  exact List.take_left _ _

/-- C6 counterexample: at resolution 1 and grid cell (0,0) we have a = 0,
b = 1, c = 2, d = 3, and the claimed cell content (a,b,c),(b,d,c) is
[0,1,2,1,3,2]; the index buffer produced by generateTerrainIndices
(noise.ts, cited by the claim) is [0,2,1,1,2,3] instead, i.e. triangles
(a,c,b),(b,c,d) with the opposite winding. -/
theorem C6_counterexample :
    ¬ ((generateTerrainIndices 1).drop (6 * (0 * 1 + 0))).take 6 = [0, 1, 2, 1, 3, 2] := by
  decide

/-- C6 (amended): for every resolution and grid cell (i,j) with
a = i*(resolution+1)+j, b = a+1, c = a+resolution+1, d = c+1, the index
buffer of the active Terrain builder createChunk (part_003) holds exactly
the triangles (a,b,c) and (b,d,c) at that cell, while the legacy helper
generateTerrainIndices (noise.ts) holds (a,c,b) and (b,c,d), the opposite
winding order. -/
theorem C6_index_cells (r i j : ℕ) (hi : i < r) (hj : j < r) :
    (((createChunkIndices r).drop (6 * (i * r + j))).take 6 =
      [i * (r + 1) + j, i * (r + 1) + j + 1, i * (r + 1) + j + r + 1,
       i * (r + 1) + j + 1, i * (r + 1) + j + r + 1 + 1, i * (r + 1) + j + r + 1]) ∧
    (((generateTerrainIndices r).drop (6 * (i * r + j))).take 6 =
      [i * (r + 1) + j, i * (r + 1) + j + r + 1, i * (r + 1) + j + 1,
       i * (r + 1) + j + 1, i * (r + 1) + j + r + 1, i * (r + 1) + j + r + 1 + 1]) := by
  constructor
  · have h := @grid_flatMap_cell (createChunkCell r) (fun a b => rfl) r i j hi hj
    rw [createChunkIndices]
    rw [h, createChunkCell]
  · have h := @grid_flatMap_cell (generateTerrainCell r) (fun a b => rfl) r i j hi hj
    rw [generateTerrainIndices]
    rw [h, generateTerrainCell]

/-- Witness for C6 at resolution 2, cell (1,0). -/
theorem C6_index_cells_witness :
    ((1 < 2 ∧ 0 < 2) ∧
      ((createChunkIndices 2).drop (6 * (1 * 2 + 0))).take 6 =
        [1 * (2 + 1) + 0, 1 * (2 + 1) + 0 + 1, 1 * (2 + 1) + 0 + 2 + 1,
         1 * (2 + 1) + 0 + 1, 1 * (2 + 1) + 0 + 2 + 1 + 1, 1 * (2 + 1) + 0 + 2 + 1]) :=
  ⟨⟨by decide, by decide⟩, (C6_index_cells 2 1 0 (by decide) (by decide)).1⟩

/-! ## Chunk cache and streaming controller (updateChunks in part_003).
The cache is the Map of resident chunks; a stored mesh object is modelled by
the build counter value assigned when its chunk was created, so that reuse of
the same stored object is visible as an unchanged counter value. -/

/-- The streaming state: the resident chunk map (insertion-ordered key/build-id
association list), the last processed player chunk coordinate
(lastPlayerChunk, initialized to 999999/999999 to force the first load), and
the next fresh build id. -/
structure StreamState where
  cache : List ((ℤ × ℤ) × ℕ)
  lastX : ℤ
  lastZ : ℤ
  nextId : ℕ
deriving DecidableEq

/-- Player chunk coordinate: Math.floor(playerX / CHUNK_SIZE). -/
def chunkOf (p : ℚ) : ℤ := ⌊p / CHUNK_SIZE⌋

/-- Iteration helper: the n consecutive integers starting at a. -/
def intRangeGo (a : ℤ) : ℕ → List ℤ
  | 0 => []
  | n + 1 => a :: intRangeGo (a + 1) n

/-- Integer range a..b inclusive, as iterated by the for loops. -/
def intRange (a b : ℤ) : List ℤ := intRangeGo a (b + 1 - a).toNat

/-- The required window: the two nested for loops of updateChunks, x from
playerChunkX - RENDER_DISTANCE to playerChunkX + RENDER_DISTANCE and z
likewise. -/
def windowList (pcx pcz : ℤ) : List (ℤ × ℤ) :=
  (intRange (pcx - RENDER_DISTANCE) (pcx + RENDER_DISTANCE)).flatMap fun x =>
    (intRange (pcz - RENDER_DISTANCE) (pcz + RENDER_DISTANCE)).map fun z => (x, z)

/-- Map.get on the chunk cache. -/
def lookupChunk : List ((ℤ × ℤ) × ℕ) → (ℤ × ℤ) → Option ℕ
  | [], _ => none
  | e :: rest, k => if e.1 = k then some e.2 else lookupChunk rest k

/-- The window-filling loop of updateChunks: for each required coordinate,
reuse the resident entry when the current cache has the key, otherwise create
a new chunk (modelled as allocating the next fresh build id).  Returns the new
cache and the next unused build id. -/
def buildWindow (old : List ((ℤ × ℤ) × ℕ)) : List (ℤ × ℤ) → ℕ → List ((ℤ × ℤ) × ℕ) × ℕ
  | [], n => ([], n)
  | w :: ws, n =>
    match lookupChunk old w with
    | some v =>
        let r := buildWindow old ws n
        ((w, v) :: r.1, r.2)
    | none =>
        let r := buildWindow old ws (n + 1)
        ((w, n) :: r.1, r.2)

/-- The body of updateChunks after the player chunk coordinate has been
computed: the no-op fast path when the chunk coordinate is unchanged,
otherwise build the new window map, and dispose every old entry whose key the
new map does not have.  Returns the new state and the list of disposed
coordinates. -/
def updateChunksAt (st : StreamState) (pcx pcz : ℤ) : StreamState × List (ℤ × ℤ) :=
  if (pcx - st.lastX).natAbs + (pcz - st.lastZ).natAbs = 0 then (st, [])
  else
    ({ cache := (buildWindow st.cache (windowList pcx pcz) st.nextId).1,
       lastX := pcx, lastZ := pcz,
       nextId := (buildWindow st.cache (windowList pcx pcz) st.nextId).2 },
     (st.cache.map Prod.fst).filter fun k =>
       (lookupChunk (buildWindow st.cache (windowList pcx pcz) st.nextId).1 k).isNone)

/-- updateChunks from part_003: floor the player position to its chunk
coordinate, then run the streaming tick body. -/
def updateChunks (st : StreamState) (px pz : ℚ) : StreamState × List (ℤ × ℤ) :=
  updateChunksAt st (chunkOf px) (chunkOf pz)

lemma mem_intRangeGo : ∀ (n : ℕ) (a x : ℤ), x ∈ intRangeGo a n ↔ a ≤ x ∧ x < a + n := by
  intro n
  induction n with
  | zero => intro a x; simp [intRangeGo]
  | succ m ih => intro a x; simp [intRangeGo, ih]; omega

lemma mem_intRange (a b x : ℤ) : x ∈ intRange a b ↔ a ≤ x ∧ x ≤ b := by
  rw [intRange, mem_intRangeGo]
  omega

lemma mem_windowList (pcx pcz : ℤ) (k : ℤ × ℤ) :
    k ∈ windowList pcx pcz ↔
      |k.1 - pcx| ≤ RENDER_DISTANCE ∧ |k.2 - pcz| ≤ RENDER_DISTANCE := by
  obtain ⟨kx, kz⟩ := k
  simp only [windowList, List.mem_flatMap, List.mem_map, mem_intRange,
    Prod.mk.injEq, abs_le, RENDER_DISTANCE]
  constructor
  · rintro ⟨x, hx, z, hz, rfl, rfl⟩
    omega
  · rintro ⟨h1, h2⟩
    exact ⟨kx, by omega, kz, by omega, rfl, rfl⟩

lemma buildWindow_keys (old : List ((ℤ × ℤ) × ℕ)) :
    ∀ (ws : List (ℤ × ℤ)) (n : ℕ), (buildWindow old ws n).1.map Prod.fst = ws := by
  intro ws
  induction ws with
  | nil => intro n; rfl
  | cons w t ih =>
      intro n
      rw [buildWindow]
      cases lookupChunk old w with
      | some v => simp [ih]
      | none => simp [ih]

lemma lookupChunk_eq_none (c : List ((ℤ × ℤ) × ℕ)) (k : ℤ × ℤ) :
    lookupChunk c k = none ↔ k ∉ c.map Prod.fst := by
  induction c with
  | nil => simp [lookupChunk]
  | cons e t ih =>
      rw [lookupChunk]
      by_cases he : e.1 = k
      · simp [he]
      · simp only [if_neg he, ih, List.map_cons, List.mem_cons]
        constructor
        · intro h hmem
          rcases hmem with h1 | h2
          · exact he h1.symm
          · exact h h2
        · intro h hmem
          exact h (Or.inr hmem)

lemma updateChunksAt_spec (st : StreamState) (pcx pcz : ℤ)
    (h : ¬(pcx = st.lastX ∧ pcz = st.lastZ)) :
    (∀ k : ℤ × ℤ,
        k ∈ (updateChunksAt st pcx pcz).1.cache.map Prod.fst ↔
          |k.1 - pcx| ≤ RENDER_DISTANCE ∧ |k.2 - pcz| ≤ RENDER_DISTANCE) ∧
    (∀ k : ℤ × ℤ,
        k ∈ (updateChunksAt st pcx pcz).2 ↔
          (k ∈ st.cache.map Prod.fst ∧
            ¬(|k.1 - pcx| ≤ RENDER_DISTANCE ∧ |k.2 - pcz| ≤ RENDER_DISTANCE))) := by
  have hguard : ¬((pcx - st.lastX).natAbs + (pcz - st.lastZ).natAbs = 0) := by
    omega
  unfold updateChunksAt
  rw [if_neg hguard]
  constructor
  · intro k
    rw [buildWindow_keys, mem_windowList]
  · intro k
    rw [List.mem_filter]
    rw [Option.isNone_iff_eq_none, lookupChunk_eq_none, buildWindow_keys,
      mem_windowList]

/-- C1: after a streaming tick that processes a changed player chunk
coordinate, the cache key set is exactly the Chebyshev window of radius
RENDER_DISTANCE around the player chunk (no extra and no missing entries),
and the disposed list of that same tick consists exactly of the previously
resident coordinates that left the window. -/
theorem C1_cache_window_exact (st : StreamState) (px pz : ℚ)
    (h : ¬(chunkOf px = st.lastX ∧ chunkOf pz = st.lastZ)) :
    (∀ k : ℤ × ℤ,
        k ∈ (updateChunks st px pz).1.cache.map Prod.fst ↔
          |k.1 - chunkOf px| ≤ RENDER_DISTANCE ∧ |k.2 - chunkOf pz| ≤ RENDER_DISTANCE) ∧
    (∀ k : ℤ × ℤ,
        k ∈ (updateChunks st px pz).2 ↔
          (k ∈ st.cache.map Prod.fst ∧
            ¬(|k.1 - chunkOf px| ≤ RENDER_DISTANCE ∧ |k.2 - chunkOf pz| ≤ RENDER_DISTANCE))) := by
  have hspec := updateChunksAt_spec st (chunkOf px) (chunkOf pz) h
  simpa [updateChunks] using hspec

/-- Witness for C1: a tick at world position (0,0) with last processed chunk
(5,5); the stale resident chunk (5,5) is outside the new window and is
disposed. -/
theorem C1_cache_window_exact_witness :
    (¬(chunkOf 0 = (5 : ℤ) ∧ chunkOf 0 = (5 : ℤ))) ∧
    (((5, 5) : ℤ × ℤ) ∈ (updateChunks ⟨[((5, 5), 0)], 5, 5, 1⟩ 0 0).2 ↔
      (((5, 5) : ℤ × ℤ) ∈ ([((5, 5), 0)] : List ((ℤ × ℤ) × ℕ)).map Prod.fst ∧
        ¬(|(5 : ℤ) - chunkOf 0| ≤ RENDER_DISTANCE ∧
          |(5 : ℤ) - chunkOf 0| ≤ RENDER_DISTANCE))) := by
  have hyp : ¬(chunkOf 0 = (5 : ℤ) ∧ chunkOf 0 = (5 : ℤ)) := by
    norm_num [chunkOf, CHUNK_SIZE]
  exact ⟨hyp, (C1_cache_window_exact ⟨[((5, 5), 0)], 5, 5, 1⟩ 0 0 hyp).2 (5, 5)⟩

/-- The initial streaming state: empty cache, lastPlayerChunk (999999,999999)
to force the first load, no build yet. -/
def demoInit : StreamState := ⟨[], 999999, 999999, 0⟩

/-- C7: with RENDER_DISTANCE = 1 and CHUNK_SIZE = 64, a tick at world (0,0)
fills the cache with exactly the 9 chunks of the window (-1..1) x (-1..1),
built fresh with ids 0..8.  After the subject moves to world (70,0), chunk
(1,0), the next tick evicts and disposes exactly the three chunks with
cx = -1, builds exactly the three chunks with cx = 2 with fresh ids 9..11,
and keeps the remaining 6 chunks with their original build ids 3..8 — the
same stored mesh objects, with no rebuild of an already-resident
coordinate. -/
theorem C7_streaming_transition :
    updateChunks demoInit 0 0 =
      ({ cache := [((-1, -1), 0), ((-1, 0), 1), ((-1, 1), 2), ((0, -1), 3),
                   ((0, 0), 4), ((0, 1), 5), ((1, -1), 6), ((1, 0), 7), ((1, 1), 8)],
         lastX := 0, lastZ := 0, nextId := 9 }, []) ∧
    updateChunks (updateChunks demoInit 0 0).1 70 0 =
      ({ cache := [((0, -1), 3), ((0, 0), 4), ((0, 1), 5), ((1, -1), 6),
                   ((1, 0), 7), ((1, 1), 8), ((2, -1), 9), ((2, 0), 10), ((2, 1), 11)],
         lastX := 1, lastZ := 0, nextId := 12 }, [(-1, -1), (-1, 0), (-1, 1)]) := by
  have h0 : chunkOf 0 = 0 := by norm_num [chunkOf, CHUNK_SIZE]
  have h70 : chunkOf 70 = 1 := by
    simp only [chunkOf, CHUNK_SIZE]
    norm_num [Int.floor_eq_iff]
  have e1 : updateChunks demoInit 0 0 =
      ({ cache := [((-1, -1), 0), ((-1, 0), 1), ((-1, 1), 2), ((0, -1), 3),
                   ((0, 0), 4), ((0, 1), 5), ((1, -1), 6), ((1, 0), 7), ((1, 1), 8)],
         lastX := 0, lastZ := 0, nextId := 9 }, []) := by
    show updateChunksAt demoInit (chunkOf 0) (chunkOf 0) = _
    rw [h0]
    decide
  refine ⟨e1, ?_⟩
  rw [e1]
  show updateChunksAt _ (chunkOf 70) (chunkOf 0) = _
  rw [h70, h0]
  decide

/-! ## Model system (src/src/components/ModelSystem.tsx).
The ambient Math.random stream is an explicit function from the call counter
to the drawn value; every Math.random() call advances the counter. -/

/-- The exact rational value of the IEEE double constant Math.PI. -/
def mathPI : ℚ := 884279719003555 / 281474976710656

/-- ModelType from ModelSystem.tsx. -/
inductive ModelType
  | tree
  | rock
  | bush
  | crystal
deriving DecidableEq, Inhabited

/-- ModelInstance from ModelSystem.tsx. -/
structure ModelInstance where
  posX : ℚ
  posY : ℚ
  posZ : ℚ
  modelType : ModelType
  scale : ℚ
  rotation : ℚ
deriving DecidableEq, Inhabited

/-- The fixed noise channels and the ambient Math.random stream visible to a
component; rand maps the current call counter to the drawn value. -/
structure WorldEnv where
  tn : Noise2D
  dn : Noise2D
  rand : ℕ → ℚ

/-- MODELS_PER_CHUNK from ModelSystem.tsx. -/
def MODELS_PER_CHUNK : ℕ := 8

/-- MIN_MODEL_SPACING from ModelSystem.tsx. -/
def MIN_MODEL_SPACING : ℚ := 8

/-- Squared euclidean distance between two 3D points; Vector3.distanceTo
compared against MIN_MODEL_SPACING is modelled by comparing the squared
distance against MIN_MODEL_SPACING^2 (equivalent since both are
nonnegative). -/
def distSq (x1 y1 z1 x2 y2 z2 : ℚ) : ℚ :=
  (x1 - x2) ^ 2 + (y1 - y2) ^ 2 + (z1 - z2) ^ 2

/-- The instance pushed for an accepted candidate of the model loop whose
first Math.random() call is at counter k: position (worldX, terrainHeight,
worldZ), type chosen from the height factor and a random draw, scale
0.8 + rand * 0.6 and rotation rand * Math.PI * 2. -/
def mkModelInstance (e : WorldEnv) (cx cz : ℤ) (cs : ℚ) (k : ℕ) : ModelInstance :=
  let worldX := (cx : ℚ) * cs + e.rand k * cs
  let worldZ := (cz : ℚ) * cs + e.rand (k + 1) * cs
  let th := getTerrainHeight e.tn e.dn worldX worldZ defaultTerrainConfig
  let heightFactor := (th + 10) / 20
  let r := e.rand (k + 2)
  { posX := worldX, posY := th, posZ := worldZ,
    modelType :=
      if 0.7 < heightFactor ∧ r < 0.4 then ModelType.crystal
      else if heightFactor < 0.3 ∧ r < 0.5 then ModelType.rock
      else if r < 0.6 then ModelType.tree
      else ModelType.bush,
    scale := 0.8 + e.rand (k + 3) * 0.6,
    rotation := e.rand (k + 4) * mathPI * 2 }

/-- The placement loop of modelInstances (ModelSystem.tsx): up to
MODELS_PER_CHUNK * 3 attempts while fewer than MODELS_PER_CHUNK instances are
accepted; each attempt draws a candidate position, discards it when it is
within MIN_MODEL_SPACING of the 3D position of any already-accepted instance
measured against the candidate point at height 0, and otherwise accepts it.
fuel is the remaining attempt count, k the Math.random call counter. -/
def modelsLoop (e : WorldEnv) (cx cz : ℤ) (cs : ℚ) :
    ℕ → ℕ → List ModelInstance → List ModelInstance
  | 0, _k, acc => acc
  | fuel + 1, k, acc =>
    if MODELS_PER_CHUNK ≤ acc.length then acc
    else if acc.any fun ex =>
        decide (distSq ex.posX ex.posY ex.posZ
          ((cx : ℚ) * cs + e.rand k * cs) 0 ((cz : ℚ) * cs + e.rand (k + 1) * cs)
          < MIN_MODEL_SPACING ^ 2) then
      modelsLoop e cx cz cs fuel (k + 2) acc
    else
      modelsLoop e cx cz cs fuel (k + 5) (acc ++ [mkModelInstance e cx cz cs k])

/-- modelInstances from ModelSystem.tsx: run the placement loop with the full
attempt budget, starting from an empty accepted list. -/
def modelInstances (e : WorldEnv) (cx cz : ℤ) (cs : ℚ) : List ModelInstance :=
  modelsLoop e cx cz cs (MODELS_PER_CHUNK * 3) 0 []

/-- Ambient stream that always draws 0. -/
def streamZero : ℕ → ℚ := fun _ => 0

/-- Ambient stream that always draws 1/2. -/
def streamHalf : ℕ → ℚ := fun _ => 1 / 2

/-- One rejected attempt of the placement loop: under the attempt budget,
if the candidate is too close to some accepted instance, the loop continues
with the Math.random counter advanced by the two position draws. -/
lemma modelsLoop_reject (e : WorldEnv) (cx cz : ℤ) (cs : ℚ) (f k : ℕ)
    (acc : List ModelInstance)
    (hlen : ¬ MODELS_PER_CHUNK ≤ acc.length)
    (hany : (acc.any fun ex =>
        decide (distSq ex.posX ex.posY ex.posZ
          ((cx : ℚ) * cs + e.rand k * cs) 0 ((cz : ℚ) * cs + e.rand (k + 1) * cs)
          < MIN_MODEL_SPACING ^ 2)) = true) :
    modelsLoop e cx cz cs (f + 1) k acc = modelsLoop e cx cz cs f (k + 2) acc := by
  rw [modelsLoop, if_neg hlen, if_pos hany]

/-- One accepted attempt of the placement loop: the candidate is appended and
the counter advances past the five draws of the attempt. -/
lemma modelsLoop_accept (e : WorldEnv) (cx cz : ℤ) (cs : ℚ) (f k : ℕ)
    (acc : List ModelInstance)
    (hlen : ¬ MODELS_PER_CHUNK ≤ acc.length)
    (hany : (acc.any fun ex =>
        decide (distSq ex.posX ex.posY ex.posZ
          ((cx : ℚ) * cs + e.rand k * cs) 0 ((cz : ℚ) * cs + e.rand (k + 1) * cs)
          < MIN_MODEL_SPACING ^ 2)) = false) :
    modelsLoop e cx cz cs (f + 1) k acc =
      modelsLoop e cx cz cs f (k + 5) (acc ++ [mkModelInstance e cx cz cs k]) := by
  rw [modelsLoop, if_neg hlen, if_neg (by rw [hany]; exact Bool.false_ne_true)]

/-- The single instance accepted by the all-zero stream for chunk (2,-3)
under constant-one noise: getTerrainHeight is then 1163/1088 everywhere. -/
def instZero : ModelInstance :=
  { posX := 128, posY := 1163 / 1088, posZ := -192, modelType := ModelType.tree,
    scale := 4 / 5, rotation := 0 }

/-- The single instance accepted by the all-one-half stream for chunk
(2,-3). -/
def instHalf : ModelInstance :=
  { posX := 160, posY := 1163 / 1088, posZ := -160, modelType := ModelType.tree,
    scale := 11 / 10, rotation := mathPI }

lemma mkModelInstance_streamZero (k : ℕ) :
    mkModelInstance ⟨noiseOne, noiseOne, streamZero⟩ 2 (-3) 64 k = instZero := by
  norm_num [mkModelInstance, instZero, streamZero, noiseOne, getTerrainHeight,
    octLoop, defaultTerrainConfig, ModelInstance.mk.injEq]

lemma mkModelInstance_streamHalf (k : ℕ) :
    mkModelInstance ⟨noiseOne, noiseOne, streamHalf⟩ 2 (-3) 64 k = instHalf := by
  norm_num [mkModelInstance, instHalf, streamHalf, noiseOne, getTerrainHeight,
    octLoop, defaultTerrainConfig, ModelInstance.mk.injEq, mathPI]

lemma modelsLoop_streamZero_stuck :
    ∀ (fuel k : ℕ),
      modelsLoop ⟨noiseOne, noiseOne, streamZero⟩ 2 (-3) 64 fuel k [instZero] =
        [instZero] := by
  intro fuel
  induction fuel with
  | zero => intro k; rfl
  | succ f ih =>
      intro k
      rw [modelsLoop_reject]
      · exact ih (k + 2)
      · norm_num [ MODELS_PER_CHUNK]
      · norm_num [streamZero, distSq, MIN_MODEL_SPACING, instZero]

lemma modelsLoop_streamHalf_stuck :
    ∀ (fuel k : ℕ),
      modelsLoop ⟨noiseOne, noiseOne, streamHalf⟩ 2 (-3) 64 fuel k [instHalf] =
        [instHalf] := by
  intro fuel
  induction fuel with
  | zero => intro k; rfl
  | succ f ih =>
      intro k
      rw [modelsLoop_reject]
      · exact ih (k + 2)
      · norm_num [ MODELS_PER_CHUNK]
      · norm_num [streamHalf, distSq, MIN_MODEL_SPACING, instHalf]

/-- C4 counterexample: the model generator is NOT a deterministic function of
(chunkX, chunkZ, config): for chunk (2,-3) with the same noise channels and
chunk size, two ambient Math.random streams (all draws 0 versus all draws
1/2) produce different instance lists, because the generator draws its
candidate positions from ambient randomness. -/
theorem C4_counterexample :
    modelInstances ⟨noiseOne, noiseOne, streamZero⟩ 2 (-3) 64 ≠
      modelInstances ⟨noiseOne, noiseOne, streamHalf⟩ 2 (-3) 64 := by
  have e1 : modelInstances ⟨noiseOne, noiseOne, streamZero⟩ 2 (-3) 64 = [instZero] := by
    show modelsLoop ⟨noiseOne, noiseOne, streamZero⟩ 2 (-3) 64 (23 + 1) 0 [] = _
    rw [modelsLoop_accept]
    · rw [List.nil_append, mkModelInstance_streamZero]
      exact modelsLoop_streamZero_stuck 23 5
    · norm_num [ MODELS_PER_CHUNK]
    · rfl
  have e2 : modelInstances ⟨noiseOne, noiseOne, streamHalf⟩ 2 (-3) 64 = [instHalf] := by
    show modelsLoop ⟨noiseOne, noiseOne, streamHalf⟩ 2 (-3) 64 (23 + 1) 0 [] = _
    rw [modelsLoop_accept]
    · rw [List.nil_append, mkModelInstance_streamHalf]
      exact modelsLoop_streamHalf_stuck 23 5
    · norm_num [ MODELS_PER_CHUNK]
    · rfl
  rw [e1, e2]
  intro h
  simp only [List.cons.injEq, ModelInstance.mk.injEq, instZero, instHalf] at h
  norm_num at h

/-! ## Procedural structures (src/src/components/ProceduralStructures.tsx).
The per-chunk seed is the fixed hash chunkX * 73856093 + chunkZ * 19349663;
the pseudo-random sequence is random(seed) = frac(Math.sin(seed) * 10000).
Math.sin is an abstract function parameter; Math.random is never called. -/

/-- StructureType from ProceduralStructures.tsx. -/
inductive StructureType
  | house
  | dungeon
deriving DecidableEq, Inhabited

/-- Structure record from ProceduralStructures.tsx. -/
structure Structure where
  id : ℕ
  stype : StructureType
  posX : ℚ
  posY : ℚ
  posZ : ℚ
  rotation : ℚ
  scale : ℚ
  variant : ℤ
deriving DecidableEq

/-- The environment of the structures component: the Math.sin table, the
heightMap and noise props, and the ambient Math.random stream (present in the
environment but never consulted by this component). -/
structure DecoEnv where
  sinq : ℚ → ℚ
  heightMap : ℚ → ℚ → ℚ
  noise : ℚ → ℚ → ℚ
  rand : ℕ → ℚ

/-- The seeded PRNG of ProceduralStructures.tsx:
random(seed) = x - floor(x) with x = sin(seed) * 10000. -/
def sinRandom (sq : ℚ → ℚ) (seed : ℚ) : ℚ :=
  sq seed * 10000 - ⌊sq seed * 10000⌋

/-- The fixed per-chunk hash seed. -/
def chunkSeed (cx cz : ℤ) : ℚ := (cx : ℚ) * 73856093 + (cz : ℚ) * 19349663

/-- One iteration of the structure placement loop (index i): jittered
position within the chunk inset by the margin, height lookup, suitability
gate on the auxiliary noise channel, and type selection: above elevation 20
dungeons are preferred, otherwise houses, each with probability 0.7. -/
def structureCandidate (e : DecoEnv) (cx cz : ℤ) (cs : ℚ) (i : ℕ) : Option Structure :=
  let structSeed := chunkSeed cx cz + (i : ℚ) * 12345
  let margin := cs * 0.2
  let x := (cx : ℚ) * cs + (sinRandom e.sinq structSeed - 0.5) * (cs - margin * 2)
  let z := (cz : ℚ) * cs + (sinRandom e.sinq (structSeed + 1) - 0.5) * (cs - margin * 2)
  let y := e.heightMap x z
  if 0.5 < |e.noise (x * 0.01) (z * 0.01)| then none
  else
    some { id := i,
           stype :=
             if 20 < y then
               (if sinRandom e.sinq (structSeed + 2) < 0.7 then StructureType.dungeon
                else StructureType.house)
             else
               (if sinRandom e.sinq (structSeed + 2) < 0.7 then StructureType.house
                else StructureType.dungeon),
           posX := x, posY := y, posZ := z,
           rotation := sinRandom e.sinq (structSeed + 3) * mathPI * 2,
           scale := 0.8 + sinRandom e.sinq (structSeed + 4) * 0.6,
           variant := ⌊sinRandom e.sinq (structSeed + 5) * 3⌋ }

/-- The structures list of ProceduralStructures.tsx: empty unless the chunk
passes the 30 percent gate, otherwise 1 or 2 placement iterations, skipping
candidates on unsuitable terrain. -/
def structuresGen (e : DecoEnv) (cx cz : ℤ) (cs : ℚ) : List Structure :=
  if sinRandom e.sinq (chunkSeed cx cz) < 0.7 then []
  else
    (List.range (⌊sinRandom e.sinq (chunkSeed cx cz + 1) * 2⌋ + 1).toNat).filterMap
      (structureCandidate e cx cz cs)

/-- C4 (amended): the structures generator is a deterministic function of the
chunk coordinate, the configuration and the fixed per-process tables (sin,
heightMap, noise): its output is independent of the state of the ambient
Math.random stream, because all its pseudo-randomness comes from the fixed
hash of (cx, cz).  The models generator, by contrast, consumes ambient
randomness (see the counterexample). -/
theorem C4_structures_deterministic (sq : ℚ → ℚ) (hm ns : ℚ → ℚ → ℚ)
    (s1 s2 : ℕ → ℚ) (cx cz : ℤ) (cs : ℚ) :
    structuresGen ⟨sq, hm, ns, s1⟩ cx cz cs = structuresGen ⟨sq, hm, ns, s2⟩ cx cz cs :=
  rfl

/-! ## Chunk build buffers (createChunk in part_003) -/

/-- getHeightBasedColor from part_003, as its HSL triple: four fixed bands
selected by the normalized height (h + 10) / 20. -/
def heightColor (h : ℚ) : ℚ × ℚ × ℚ :=
  let normalizedHeight := (h + 10) / 20
  if normalizedHeight < 0.2 then (0.6, 0.8, 0.3)
  else if normalizedHeight < 0.4 then (0.3, 0.6, 0.4)
  else if normalizedHeight < 0.7 then (0.15, 0.7, 0.5)
  else (0, 0, 0.8)

/-- The flat vertex position buffer of createChunk (part_003): for each grid
vertex (i, j) the world x, the sampled height, and the world z. -/
def buildChunkVertices (e : WorldEnv) (cx cz : ℤ) : List ℚ :=
  (List.range (CHUNK_RESOLUTION + 1)).flatMap fun i =>
    (List.range (CHUNK_RESOLUTION + 1)).flatMap fun j =>
      [chunkVertexCoord cx i,
       getTerrainHeight e.tn e.dn (chunkVertexCoord cx i) (chunkVertexCoord cz j)
         defaultTerrainConfig,
       chunkVertexCoord cz j]

/-- The flat per-vertex color buffer of createChunk (part_003). -/
def buildChunkColors (e : WorldEnv) (cx cz : ℤ) : List ℚ :=
  (List.range (CHUNK_RESOLUTION + 1)).flatMap fun i =>
    (List.range (CHUNK_RESOLUTION + 1)).flatMap fun j =>
      [(heightColor (getTerrainHeight e.tn e.dn (chunkVertexCoord cx i)
          (chunkVertexCoord cz j) defaultTerrainConfig)).1,
       (heightColor (getTerrainHeight e.tn e.dn (chunkVertexCoord cx i)
          (chunkVertexCoord cz j) defaultTerrainConfig)).2.1,
       (heightColor (getTerrainHeight e.tn e.dn (chunkVertexCoord cx i)
          (chunkVertexCoord cz j) defaultTerrainConfig)).2.2]

/-- The three buffers built by createChunk for a chunk coordinate: vertex
positions, vertex colors, and the triangle index buffer. -/
def buildChunkBuffers (e : WorldEnv) (cx cz : ℤ) : List ℚ × List ℚ × List ℕ :=
  (buildChunkVertices e cx cz, buildChunkColors e cx cz,
    createChunkIndices CHUNK_RESOLUTION)

/-- C8: two-run determinism.  The height field and the chunk builder read
only the fixed noise tables; their results are independent of the ambient
Math.random stream state, the only mutable ambient state, so evaluating
height(x,z) twice gives bit-identical results and two independent builds of
the same chunk coordinate produce identical vertex, color and index
buffers. -/
theorem C8_build_deterministic (tn dn : Noise2D) (s1 s2 : ℕ → ℚ) (cx cz : ℤ) (x z : ℚ) :
    getTerrainHeight (WorldEnv.mk tn dn s1).tn (WorldEnv.mk tn dn s1).dn x z
        defaultTerrainConfig =
      getTerrainHeight (WorldEnv.mk tn dn s2).tn (WorldEnv.mk tn dn s2).dn x z
        defaultTerrainConfig ∧
    buildChunkBuffers ⟨tn, dn, s1⟩ cx cz = buildChunkBuffers ⟨tn, dn, s2⟩ cx cz :=
  ⟨rfl, rfl⟩

/-- The separation relation the model loop actually checks: the squared
distance from the earlier instance's full 3D position to the later
candidate's point at height 0 is at least MIN_MODEL_SPACING squared. -/
def checkedApart (a b : ModelInstance) : Prop :=
  MIN_MODEL_SPACING ^ 2 ≤ distSq a.posX a.posY a.posZ b.posX 0 b.posZ

lemma modelsLoop_pairwise (e : WorldEnv) (cx cz : ℤ) (cs : ℚ) :
    ∀ (fuel k : ℕ) (acc : List ModelInstance), acc.Pairwise checkedApart →
      (modelsLoop e cx cz cs fuel k acc).Pairwise checkedApart := by
  intro fuel
  induction fuel with
  | zero => intro k acc h; exact h
  | succ f ih =>
      intro k acc hacc
      rw [modelsLoop]
      by_cases hlen : MODELS_PER_CHUNK ≤ acc.length
      · rw [if_pos hlen]; exact hacc
      · rw [if_neg hlen]
        by_cases hany : (acc.any fun ex =>
            decide (distSq ex.posX ex.posY ex.posZ
              ((cx : ℚ) * cs + e.rand k * cs) 0 ((cz : ℚ) * cs + e.rand (k + 1) * cs)
              < MIN_MODEL_SPACING ^ 2)) = true
        · rw [if_pos hany]; exact ih (k + 2) acc hacc
        · rw [if_neg hany]
          apply ih
          rw [List.pairwise_append]
          refine ⟨hacc, List.pairwise_singleton _ _, ?_⟩
          intro a ha b hb
          rw [List.mem_singleton] at hb
          subst hb
          simp only [List.any_eq_true, decide_eq_true_eq] at hany
          push_neg at hany
          have hx : (mkModelInstance e cx cz cs k).posX = (cx : ℚ) * cs + e.rand k * cs := rfl
          have hz : (mkModelInstance e cx cz cs k).posZ =
              (cz : ℚ) * cs + e.rand (k + 1) * cs := rfl
          rw [checkedApart, hx, hz]
          exact hany a ha

/-- C5 (amended): within one chunk, every accepted model instance is at
checked distance at least MIN_MODEL_SPACING from each later accepted
candidate, where the check measures from the earlier instance's 3D position
(terrain height included) to the later candidate's position projected to
height 0; this is the invariant the loop enforces.  True pairwise 3D
separation of the stored positions can still fall below MIN_MODEL_SPACING
(see the counterexample), and the structures generator enforces no
separation at all. -/
theorem C5_models_checked_separation (e : WorldEnv) (cx cz : ℤ) (cs : ℚ) :
    (modelInstances e cx cz cs).Pairwise checkedApart :=
  modelsLoop_pairwise e cx cz cs (MODELS_PER_CHUNK * 3) 0 [] List.Pairwise.nil

/-- The ambient stream of the C5 counterexample: draw 5 (the x position of
the second candidate) is 793/6400, every other draw is 0. -/
def streamC5 : ℕ → ℚ := fun n => if n = 5 then 793 / 6400 else 0

/-- First accepted instance of the C5 scenario, at the chunk corner. -/
def instC5a : ModelInstance :=
  { posX := 0, posY := 1163 / 1088, posZ := 0, modelType := ModelType.tree,
    scale := 4 / 5, rotation := 0 }

/-- Second accepted instance of the C5 scenario: 7.93 away horizontally.
The check against instC5a measures 7.93^2 + (1163/1088)^2 = 64.027... of
squared distance (candidate taken at height 0), which passes, yet the two
stored positions are only 7.93 < 8 apart. -/
def instC5b : ModelInstance :=
  { posX := 793 / 100, posY := 1163 / 1088, posZ := 0, modelType := ModelType.tree,
    scale := 4 / 5, rotation := 0 }

lemma streamC5_eq_zero (n : ℕ) (hn : n ≠ 5) : streamC5 n = 0 := by
  rw [streamC5]
  exact if_neg hn

lemma mkModelInstance_streamC5_0 :
    mkModelInstance ⟨noiseOne, noiseOne, streamC5⟩ 0 0 64 0 = instC5a := by
  norm_num [mkModelInstance, instC5a, streamC5, noiseOne, getTerrainHeight,
    octLoop, defaultTerrainConfig, ModelInstance.mk.injEq]

lemma mkModelInstance_streamC5_5 :
    mkModelInstance ⟨noiseOne, noiseOne, streamC5⟩ 0 0 64 5 = instC5b := by
  norm_num [mkModelInstance, instC5b, streamC5, noiseOne, getTerrainHeight,
    octLoop, defaultTerrainConfig, ModelInstance.mk.injEq]

lemma modelsLoop_streamC5_stuck :
    ∀ (fuel k : ℕ), 6 ≤ k →
      modelsLoop ⟨noiseOne, noiseOne, streamC5⟩ 0 0 64 fuel k [instC5a, instC5b] =
        [instC5a, instC5b] := by
  intro fuel
  induction fuel with
  | zero => intro k _; rfl
  | succ f ih =>
      intro k hk
      have h1 : streamC5 k = 0 := streamC5_eq_zero k (by omega)
      have h2 : streamC5 (k + 1) = 0 := streamC5_eq_zero (k + 1) (by omega)
      rw [modelsLoop_reject]
      · exact ih (k + 2) (by omega)
      · norm_num [ MODELS_PER_CHUNK]
      · norm_num [h1, h2, distSq, MIN_MODEL_SPACING, instC5a, instC5b]

/-- C5 counterexample: the claim that no two accepted instances within one
chunk are closer than the minimum spacing is false.  With constant-one noise
and the streamC5 ambient draws, chunk (0,0) accepts exactly two instances
whose stored 3D positions are 7.93 < 8 apart: the spacing check measures the
candidate at height 0, so the terrain height of the existing instance
(about 1.069) inflates the checked distance past 8 while the real separation
stays below it. -/
theorem C5_counterexample :
    modelInstances ⟨noiseOne, noiseOne, streamC5⟩ 0 0 64 = [instC5a, instC5b] ∧
    distSq instC5a.posX instC5a.posY instC5a.posZ
      instC5b.posX instC5b.posY instC5b.posZ < MIN_MODEL_SPACING ^ 2 := by
  constructor
  · show modelsLoop ⟨noiseOne, noiseOne, streamC5⟩ 0 0 64 (23 + 1) 0 [] = _
    rw [modelsLoop_accept]
    · rw [List.nil_append, mkModelInstance_streamC5_0]
      show modelsLoop ⟨noiseOne, noiseOne, streamC5⟩ 0 0 64 (22 + 1) 5 [instC5a] = _
      rw [modelsLoop_accept]
      · rw [mkModelInstance_streamC5_5]
        show modelsLoop ⟨noiseOne, noiseOne, streamC5⟩ 0 0 64 22 10
          [instC5a, instC5b] = _
        exact modelsLoop_streamC5_stuck 22 10 (by omega)
      · norm_num [ MODELS_PER_CHUNK]
      · norm_num [streamC5, distSq, MIN_MODEL_SPACING, instC5a]
    · norm_num [ MODELS_PER_CHUNK]
    · rfl
  · norm_num [instC5a, instC5b, distSq, MIN_MODEL_SPACING]

/-! ## Vertex normals (generateTerrainNormals in noise.ts).
Array reads are modelled with getD (all call sites index in range), and the
final normalization maps into the reals since it divides by a square root;
the source guard length > 0 (with length = sqrt of the squared norm) is
modelled by the equivalent rational guard 0 < squared norm. -/

/-- The face normal of one triangle: cross product of the two edge vectors
out of the first vertex, exactly as computed in lines 174-185 of noise.ts.
Arguments are vertex indices (the source premultiplies them by 3). -/
def triCross (verts : List ℚ) (i1 i2 i3 : ℕ) : ℚ × ℚ × ℚ :=
  let v1x := verts.getD (3 * i1) 0
  let v1y := verts.getD (3 * i1 + 1) 0
  let v1z := verts.getD (3 * i1 + 2) 0
  let v2x := verts.getD (3 * i2) 0
  let v2y := verts.getD (3 * i2 + 1) 0
  let v2z := verts.getD (3 * i2 + 2) 0
  let v3x := verts.getD (3 * i3) 0
  let v3y := verts.getD (3 * i3 + 1) 0
  let v3z := verts.getD (3 * i3 + 2) 0
  let e1x := v2x - v1x
  let e1y := v2y - v1y
  let e1z := v2z - v1z
  let e2x := v3x - v1x
  let e2y := v3y - v1y
  let e2z := v3z - v1z
  (e1y * e2z - e1z * e2y, e1z * e2x - e1x * e2z, e1x * e2y - e1y * e2x)

/-- normals[p] += v. -/
def addAtN (ns : List ℚ) (p : ℕ) (v : ℚ) : List ℚ :=
  ns.set p (ns.getD p 0 + v)

/-- Accumulate one triangle's face normal into the three component slots of
each of its vertices. -/
def accumTri (verts ns : List ℚ) (i1 i2 i3 : ℕ) : List ℚ :=
  let n := triCross verts i1 i2 i3
  let ns1 := addAtN (addAtN (addAtN ns (3 * i1) n.1) (3 * i1 + 1) n.2.1) (3 * i1 + 2) n.2.2
  let ns2 := addAtN (addAtN (addAtN ns1 (3 * i2) n.1) (3 * i2 + 1) n.2.1) (3 * i2 + 2) n.2.2
  addAtN (addAtN (addAtN ns2 (3 * i3) n.1) (3 * i3 + 1) n.2.1) (3 * i3 + 2) n.2.2

/-- The accumulation loop over the index buffer, three entries at a time. -/
def accumNormals (verts : List ℚ) : List ℕ → List ℚ → List ℚ
  | i1 :: i2 :: i3 :: rest, ns => accumNormals verts rest (accumTri verts ns i1 i2 i3)
  | _, ns => ns

/-- The accumulated (pre-normalization) normal vector of vertex v: the three
slots of the normals array after the accumulation pass over a zero-initialized
array of the same length as the vertex buffer. -/
def accVec (verts : List ℚ) (idx : List ℕ) (v : ℕ) : ℚ × ℚ × ℚ :=
  let ns := accumNormals verts idx (verts.map fun _ => 0)
  (ns.getD (3 * v) 0, ns.getD (3 * v + 1) 0, ns.getD (3 * v + 2) 0)

/-- Squared length of the accumulated normal of vertex v. -/
def accSqNorm (verts : List ℚ) (idx : List ℕ) (v : ℕ) : ℚ :=
  (accVec verts idx v).1 ^ 2 + (accVec verts idx v).2.1 ^ 2 + (accVec verts idx v).2.2 ^ 2

/-- The normalization pass of generateTerrainNormals for vertex v: divide the
accumulated vector by its length when the length is strictly positive
(equivalently, when the squared norm is strictly positive), else leave the
zero vector. -/
noncomputable def normalizedNormal (verts : List ℚ) (idx : List ℕ) (v : ℕ) : ℝ × ℝ × ℝ :=
  if 0 < accSqNorm verts idx v then
    (((accVec verts idx v).1 : ℝ) / Real.sqrt ((accSqNorm verts idx v : ℚ) : ℝ),
     ((accVec verts idx v).2.1 : ℝ) / Real.sqrt ((accSqNorm verts idx v : ℚ) : ℝ),
     ((accVec verts idx v).2.2 : ℝ) / Real.sqrt ((accSqNorm verts idx v : ℚ) : ℝ))
  else (0, 0, 0)

/-- C9: for every vertex buffer, index buffer and vertex, the output normal
of the normal generator is either exactly the zero vector — and that happens
exactly when the accumulated cross-product sum was zero — or has squared
length exactly 1; whenever the normalization divides, the divisor (the square
root of the accumulated squared norm) is nonzero, so the computation never
divides by zero. -/
theorem C9_normals_unit_or_zero (verts : List ℚ) (idx : List ℕ) (v : ℕ) :
    (accVec verts idx v = (0, 0, 0) ∧ normalizedNormal verts idx v = (0, 0, 0)) ∨
    (accVec verts idx v ≠ (0, 0, 0) ∧
      Real.sqrt ((accSqNorm verts idx v : ℚ) : ℝ) ≠ 0 ∧
      (normalizedNormal verts idx v).1 ^ 2 + (normalizedNormal verts idx v).2.1 ^ 2 +
        (normalizedNormal verts idx v).2.2 ^ 2 = 1) := by
  by_cases h : 0 < accSqNorm verts idx v
  · right
    have hpos : (0 : ℝ) < ((accSqNorm verts idx v : ℚ) : ℝ) := by exact_mod_cast h
    have hsqrt : Real.sqrt ((accSqNorm verts idx v : ℚ) : ℝ) ≠ 0 :=
      ne_of_gt (Real.sqrt_pos.mpr hpos)
    refine ⟨?_, hsqrt, ?_⟩
    · intro hzero
      rw [accSqNorm, hzero] at h
      norm_num at h
    · rw [normalizedNormal, if_pos h]
      have hsq : Real.sqrt ((accSqNorm verts idx v : ℚ) : ℝ) ^ 2 =
          ((accSqNorm verts idx v : ℚ) : ℝ) := Real.sq_sqrt hpos.le
      have hcast : ((accSqNorm verts idx v : ℚ) : ℝ) =
          ((accVec verts idx v).1 : ℝ) ^ 2 + ((accVec verts idx v).2.1 : ℝ) ^ 2 +
            ((accVec verts idx v).2.2 : ℝ) ^ 2 := by
        rw [accSqNorm]
        push_cast
        ring
      rw [div_pow, div_pow, div_pow, hsq, div_add_div_same, div_add_div_same]
      rw [← hcast]
      exact div_self (ne_of_gt hpos)
  · left
    have hnonneg : 0 ≤ accSqNorm verts idx v := by
      rw [accSqNorm]
      positivity
    have hzero : accSqNorm verts idx v = 0 := le_antisymm (not_lt.mp h) hnonneg
    rw [accSqNorm] at hzero
    have key : ∀ p q r : ℚ, p ^ 2 + q ^ 2 + r ^ 2 = 0 → p = 0 ∧ q = 0 ∧ r = 0 := by
      intro p q r hpqr
      refine ⟨?_, ?_, ?_⟩ <;> nlinarith [sq_nonneg p, sq_nonneg q, sq_nonneg r]
    obtain ⟨h1, h2, h3⟩ := key _ _ _ hzero
    constructor
    · rw [Prod.ext_iff, Prod.ext_iff]
      exact ⟨h1, h2, h3⟩
    · rw [normalizedNormal, if_neg h]

/-- Shared helper: under the default configuration, if every noise sample
lies in [-1,1] then the absolute height is at most 23/20 = 1.15: the
normalized octave sum contributes at most 1, and the detail, ridge and
valley terms at most (0.8 + 3) / 26.112 more. -/
lemma getTerrainHeight_bound (tn dn : Noise2D)
    (htn : ∀ a b, |tn a b| ≤ 1) (hdn : ∀ a b, |dn a b| ≤ 1) (x z : ℚ) :
    |getTerrainHeight tn dn x z defaultTerrainConfig| ≤ 23 / 20 := by
  rw [getTerrainHeight_closed, octaveSum, maxAmplitude]
  simp only [defaultTerrainConfig, detailTerm, ridgeTerm, valleyTerm,
    Finset.sum_range_succ, Finset.sum_range_zero, pow_zero, pow_one, mul_one,
    zero_add]
  have h0 := abs_le.mp (htn (x * 0.01) (z * 0.01))
  have h1 := abs_le.mp (htn (x * (0.01 * 2.2)) (z * (0.01 * 2.2)))
  have h2 := abs_le.mp (htn (x * (0.01 * 2.2 ^ 2)) (z * (0.01 * 2.2 ^ 2)))
  have h3 := abs_le.mp (htn (x * (0.01 * 2.2 ^ 3)) (z * (0.01 * 2.2 ^ 3)))
  have hd := abs_le.mp (hdn (x * 0.1) (z * 0.1))
  have hr := htn (x * 0.02) (z * 0.02)
  have hrnn : (0 : ℚ) ≤ |tn (x * 0.02) (z * 0.02)| := abs_nonneg _
  have hv0 : (0 : ℚ) ≤ (tn (x * 0.01) (z * 0.01)) ^ 2 := sq_nonneg _
  have hv1 : (tn (x * 0.01) (z * 0.01)) ^ 2 ≤ 1 := by nlinarith [h0.1, h0.2]
  have hden : (0 : ℚ) < 12 + 12 * 0.6 + 12 * 0.6 ^ 2 + 12 * 0.6 ^ 3 := by norm_num
  rw [abs_le]
  constructor
  · rw [le_div_iff hden]
    nlinarith [h0.1, h0.2, h1.1, h1.2, h2.1, h2.2, h3.1, h3.2, hd.1, hd.2,
      hr, hrnn, hv0, hv1]
  · rw [div_le_iff hden]
    nlinarith [h0.1, h0.2, h1.1, h1.2, h2.1, h2.2, h3.1, h3.2, hd.1, hd.2,
      hr, hrnn, hv0, hv1]

/-- C10: under the default terrain configuration, assuming every noise call
returns a value in [-1,1], the height field is bounded by 1.15 in absolute
value, far below 20; consequently the structure generator's high-elevation
test y > 20 never holds when its heightMap is this height field, and every
accepted structure's type is decided by the low-elevation branch: house when
the type draw is below 0.7, dungeon otherwise. -/
theorem C10_low_elevation_branch (tn dn : Noise2D) (sq : ℚ → ℚ) (ns : ℚ → ℚ → ℚ)
    (rs : ℕ → ℚ) (cx cz : ℤ) (cs : ℚ)
    (htn : ∀ a b, |tn a b| ≤ 1) (hdn : ∀ a b, |dn a b| ≤ 1) :
    (∀ x z, |getTerrainHeight tn dn x z defaultTerrainConfig| ≤ 23 / 20) ∧
    (∀ s ∈ structuresGen
        ⟨sq, fun x z => getTerrainHeight tn dn x z defaultTerrainConfig, ns, rs⟩
        cx cz cs,
      s.stype = if sinRandom sq (chunkSeed cx cz + (s.id : ℚ) * 12345 + 2) < 0.7
        then StructureType.house else StructureType.dungeon) := by
  have h20 : ∀ a b : ℚ, ¬ (20 < getTerrainHeight tn dn a b defaultTerrainConfig) := by
    intro a b
    have hb := (abs_le.mp (getTerrainHeight_bound tn dn htn hdn a b)).2
    linarith
  refine ⟨fun x z => getTerrainHeight_bound tn dn htn hdn x z, ?_⟩
  intro s hs
  rw [structuresGen] at hs
  split_ifs at hs with hgate
  · exact absurd hs (List.not_mem_nil s)
  · rw [List.mem_filterMap] at hs
    obtain ⟨i, _hi, hc⟩ := hs
    simp only [structureCandidate] at hc
    split_ifs at hc <;>
      first
        | exact Option.noConfusion hc
        | (exfalso; apply h20 _ _; assumption)
        | (rw [Option.some.injEq] at hc; subst hc; dsimp only;
           rw [if_pos (by assumption)])
        | (rw [Option.some.injEq] at hc; subst hc; dsimp only;
           rw [if_neg (by assumption)])

/-- Witness for C10 with constant-zero noise channels: the range hypotheses
hold and the bound evaluates at a concrete point. -/
theorem C10_low_elevation_branch_witness :
    (∀ a b : ℚ, |noiseZero a b| ≤ 1) ∧
    |getTerrainHeight noiseZero noiseZero 3 5 defaultTerrainConfig| ≤ 23 / 20 :=
  ⟨fun a b => by norm_num [noiseZero],
   (C10_low_elevation_branch noiseZero noiseZero (fun _ => 0) (fun _ _ => 0)
     (fun _ => 0) 0 0 64 (fun a b => by norm_num [noiseZero])
     (fun a b => by norm_num [noiseZero])).1 3 5⟩
